import Mathlib

/-!
Shallow embedding of the `cadical-rs` binding layer (`src/lib.rs`).

The native CaDiCaL engine is an external black box reached only through a
C ABI; the binding is modelled as a state machine over `SolverSt` whose
operations return, besides their result and updated state, the ordered
trace of foreign-boundary events (`Event`) the Rust code emits.  Engine
answers (solve status codes, `ccadical_val` / `ccadical_failed` replies,
signature bytes) are oracle inputs to the operations.  Heap addresses of
the boxed callback strategy are modelled by a counter (`nextAddr`), so the
raw context pointer registered with `ccadical_set_terminate` can be tracked.
-/

namespace Cadical

/-- Minimum value of a Rust `i32` (the forbidden literal sentinel). -/
def i32Min : Int := -2147483648

/-- Maximum value of a Rust `i32`. -/
def i32Max : Int := 2147483647

/-- Release-mode Rust negation of an `i32` (two's-complement wrapping). -/
def negI32 (x : Int) : Int := (-x + 2147483648) % 4294967296 - 2147483648

/-- Events at the foreign/ownership boundary, in the order the Rust code
emits them: calls into the engine ABI, the callback-strategy "started"
notification, and allocation / in-place overwrite / drop of the boxed
strategy.  `engSetTerminate ctx hasCb` records the context pointer passed
(`none` = null) and whether a non-null trampoline was passed. -/
inductive Event where
  | engInit
  | cbStarted
  | engAdd (lit : Int)
  | engAssume (lit : Int)
  | engSolve
  | engVal (lit : Int)
  | engFailed (lit : Int)
  | engSetTerminate (ctx : Option Nat) (hasCb : Bool)
  | engSignature
  | engRelease
  | allocStrategy
  | overwriteStrategy
  | dropStrategy
deriving DecidableEq, Repr

/-- The `Callbacks` trait of the binding: `started` is invoked when `solve`
begins, `terminate` is polled by the engine (its Bool result is translated
to the engine's nonzero-means-stop flag by the trampoline). -/
structure Callbacks (C : Type) where
  started : C → C
  terminate : C → C × Bool

/-- State of `Solver<C>`: the last-result tri-state (`state`), the optional
owned callback strategy (`cb`, the contents of the `Box<C>`), the heap
address of that box when one is allocated (`cbAddr`), and an allocator
counter handing out fresh addresses (`nextAddr`).  The native pointer
itself is left abstract; calls through it appear in the event trace. -/
structure SolverSt (C : Type) where
  state : Option Bool
  cb : Option C
  cbAddr : Option Nat
  nextAddr : Nat

/-- `Solver::new`: fresh state, no result, no callbacks installed. -/
def newSolver (C : Type) : SolverSt C := ⟨none, none, none, 0⟩

/-- `Solver::add_clause` (release build): submit every literal via
`ccadical_add`, then the zero terminator, and reset `state` to `None`. -/
def addClause {C : Type} (s : SolverSt C) (clause : List Int) :
    SolverSt C × List Event :=
  ({ s with state := none }, clause.map Event.engAdd ++ [Event.engAdd 0])

/-- `Solver::solve`: notify the installed strategy (if any) that solving
started, call `ccadical_solve` obtaining status code `r`, store and return
`Some(true)` for 10, `Some(false)` for 20, `None` otherwise. -/
def solve {C : Type} (impl : Callbacks C) (s : SolverSt C) (r : Int) :
    Option Bool × SolverSt C × List Event :=
  let pre : SolverSt C × List Event :=
    match s.cb with
    | some c => ({ s with cb := some (impl.started c) }, [Event.cbStarted])
    | none => (s, [])
  let st := if r = 10 then some true else if r = 20 then some false else none
  (st, { pre.1 with state := st }, pre.2 ++ [Event.engSolve])

/-- `Solver::solve_with` (release build): submit each assumption via
`ccadical_assume`, then delegate to `solve`. -/
def solveWith {C : Type} (impl : Callbacks C) (s : SolverSt C)
    (asms : List Int) (r : Int) : Option Bool × SolverSt C × List Event :=
  let so := solve impl s r
  (so.1, so.2.1, asms.map Event.engAssume ++ so.2.2)

/-- `Solver::value` (release build): ask `ccadical_val` (oracle answer
`engAns`); the literal itself means true, its (wrapping) negation false,
anything else unconstrained.  Takes `&self`: the state is not changed. -/
def value {C : Type} (s : SolverSt C) (lit engAns : Int) :
    Option Bool × List Event :=
  ((if engAns = lit then some true
    else if engAns = negI32 lit then some false
    else none), [Event.engVal lit])

/-- `Solver::failed` (release build): ask `ccadical_failed` (oracle answer
`engAns`) and compare with 1.  Takes `&self`: the state is not changed. -/
def failed {C : Type} (s : SolverSt C) (lit engAns : Int) :
    Bool × List Event :=
  (engAns == 1, [Event.engFailed lit])

/-- `Solver::set_callbacks`, translated statement by statement.  Installing
over an existing strategy overwrites the box contents in place
(`*data.as_mut() = cb`); first installation allocates the box and registers
the trampoline with a pointer to its contents; clearing first executes
`self.cb = None` (dropping the box, when present) and only then calls
`ccadical_set_terminate(ptr, null, None)`. -/
def setCallbacks {C : Type} (s : SolverSt C) (cb : Option C) :
    SolverSt C × List Event :=
  match cb with
  | some c =>
    match s.cb with
    | some _ => ({ s with cb := some c }, [Event.overwriteStrategy])
    | none =>
      (⟨s.state, some c, some s.nextAddr, s.nextAddr + 1⟩,
       [Event.allocStrategy, Event.engSetTerminate (some s.nextAddr) true])
  | none =>
    ({ s with cb := none, cbAddr := none },
     (match s.cb with
      | some _ => [Event.dropStrategy]
      | none => []) ++ [Event.engSetTerminate none false])

/-- UTF-8 continuation byte (0x80..=0xBF). -/
def utf8Cont (b : Nat) : Bool := decide (0x80 ≤ b ∧ b ≤ 0xBF)

/-- Constraint on the second byte of a multi-byte UTF-8 sequence, depending
on the leading byte (mirrors Rust's `core::str` validation table). -/
def utf8SecondOk (b0 b1 : Nat) : Bool :=
  if b0 = 0xE0 then decide (0xA0 ≤ b1 ∧ b1 ≤ 0xBF)
  else if b0 = 0xED then decide (0x80 ≤ b1 ∧ b1 ≤ 0x9F)
  else if b0 = 0xF0 then decide (0x90 ≤ b1 ∧ b1 ≤ 0xBF)
  else if b0 = 0xF4 then decide (0x80 ≤ b1 ∧ b1 ≤ 0x8F)
  else utf8Cont b1

/-- UTF-8 validity of a byte sequence, as checked by `CStr::to_str`. -/
def utf8Valid : List Nat → Bool
  | [] => true
  | b0 :: rest =>
    if b0 ≤ 0x7F then utf8Valid rest
    else if b0 < 0xC2 then false
    else if b0 ≤ 0xDF then
      match rest with
      | b1 :: rest2 => utf8Cont b1 && utf8Valid rest2
      | [] => false
    else if b0 ≤ 0xEF then
      match rest with
      | b1 :: b2 :: rest3 =>
        utf8SecondOk b0 b1 && utf8Cont b2 && utf8Valid rest3
      | _ => false
    else if b0 ≤ 0xF4 then
      match rest with
      | b1 :: b2 :: b3 :: rest4 =>
        utf8SecondOk b0 b1 && utf8Cont b2 && utf8Cont b3 && utf8Valid rest4
      | _ => false
    else false

/-- The bytes of the fallback string literal "invalid". -/
def invalidBytes : List Nat := [0x69, 0x6E, 0x76, 0x61, 0x6C, 0x69, 0x64]

/-- `Solver::signature`: read the engine's signature bytes (oracle input),
return them when they are valid UTF-8 and the fallback "invalid" otherwise
(`s.to_str().unwrap_or("invalid")`).  Takes `&self`: no state change. -/
def signature {C : Type} (s : SolverSt C) (bytes : List Nat) :
    List Nat × SolverSt C × List Event :=
  ((if utf8Valid bytes then bytes else invalidBytes), s, [Event.engSignature])

/-- `Drop for Solver`: the engine events emitted when the handle's
lifetime ends — a single `ccadical_release`. -/
def dropSolver {C : Type} (s : SolverSt C) : List Event := [Event.engRelease]

/-- One public operation of the binding, together with the oracle inputs
(engine answers) it consumes. -/
inductive Op (C : Type) where
  | addClause (clause : List Int)
  | solve (r : Int)
  | solveWith (asms : List Int) (r : Int)
  | value (lit engAns : Int)
  | failedQ (lit engAns : Int)
  | setCallbacks (cb : Option C)
  | signatureQ (bytes : List Nat)
  | stateQ

/-- Apply one operation to the solver state, keeping the emitted trace. -/
def stepOp {C : Type} (impl : Callbacks C) (s : SolverSt C) :
    Op C → SolverSt C × List Event
  | Op.addClause clause => addClause s clause
  | Op.solve r => (solve impl s r).2
  | Op.solveWith asms r => (solveWith impl s asms r).2
  | Op.value lit engAns => (s, (value s lit engAns).2)
  | Op.failedQ lit engAns => (s, (failed s lit engAns).2)
  | Op.setCallbacks cb => setCallbacks s cb
  | Op.signatureQ bytes => (signature s bytes).2
  | Op.stateQ => (s, [])

/-- Run a sequence of operations, concatenating the traces. -/
def runOps {C : Type} (impl : Callbacks C) :
    SolverSt C → List (Op C) → SolverSt C × List Event
  | s, [] => (s, [])
  | s, op :: rest =>
    ((runOps impl (stepOp impl s op).1 rest).1,
     (stepOp impl s op).2 ++ (runOps impl (stepOp impl s op).1 rest).2)

/-- The trace of a whole solver lifetime: creation, the caller's
operations, then the automatic drop. -/
def lifetimeTrace {C : Type} (impl : Callbacks C) (ops : List (Op C)) :
    List Event :=
  Event.engInit :: (runOps impl (newSolver C) ops).2 ++
    dropSolver (runOps impl (newSolver C) ops).1

/-- Context pointer registered with the engine after processing a trace:
`engSetTerminate` events overwrite it, everything else leaves it. -/
def regAfter (r : Option Nat) : List Event → Option Nat
  | [] => r
  | Event.engSetTerminate ctx _ :: rest => regAfter ctx rest
  | _ :: rest => regAfter r rest

/-- Rust `debug_assert!(lit != 0 && lit != i32::MIN)` condition. -/
def litOk (lit : Int) : Bool := decide (lit ≠ 0 ∧ lit ≠ i32Min)

/-- A `debug_assert!`: in a debug build a false condition panics
(modelled as `none`); the computation continues otherwise. -/
def dbgAssert (cond : Bool) : Option Unit := if cond then some () else none

/-- Debug-build check of every literal of a sequence. -/
def checkLits : List Int → Option Unit
  | [] => some ()
  | lit :: rest => do
    let _ ← dbgAssert (litOk lit)
    checkLits rest

/-- `Solver::add_clause` in a debug build: the per-literal assertions may
panic; otherwise the behaviour is the release one. -/
def addClauseDebug {C : Type} (s : SolverSt C) (clause : List Int) :
    Option (SolverSt C × List Event) := do
  let _ ← checkLits clause
  pure (addClause s clause)

/-- `Solver::solve_with` in a debug build. -/
def solveWithDebug {C : Type} (impl : Callbacks C) (s : SolverSt C)
    (asms : List Int) (r : Int) :
    Option (Option Bool × SolverSt C × List Event) := do
  let _ ← checkLits asms
  pure (solveWith impl s asms r)

/-- `Solver::value` in a debug build: asserts `state == Some(true)` and
literal validity before proceeding. -/
def valueDebug {C : Type} (s : SolverSt C) (lit engAns : Int) :
    Option (Option Bool × List Event) := do
  let _ ← dbgAssert (decide (s.state = some true))
  let _ ← dbgAssert (litOk lit)
  pure (value s lit engAns)

/-- `Solver::failed` in a debug build: asserts `state == Some(false)` and
literal validity before proceeding. -/
def failedDebug {C : Type} (s : SolverSt C) (lit engAns : Int) :
    Option (Bool × List Event) := do
  let _ ← dbgAssert (decide (s.state = some false))
  let _ ← dbgAssert (litOk lit)
  pure (failed s lit engAns)

theorem negI32_eq_neg (x : Int) (h1 : i32Min < x) (h2 : x ≤ i32Max) :
    negI32 x = -x := by
  unfold negI32
  unfold i32Min at h1
  unfold i32Max at h2
  omega

/-- Claim C1: `solve` (and `solve_with`, which delegates to it) maps engine
status code 10 to `Some(true)`, 20 to `Some(false)` and any other code to
`None`; the stored result state is set to exactly this value and the same
value is returned to the caller. -/
theorem claim1_solve_status_mapping {C : Type} (impl : Callbacks C)
    (s : SolverSt C) (r : Int) (asms : List Int) :
    (solve impl s r).1 =
      (if r = 10 then some true else if r = 20 then some false else none) ∧
    (solve impl s r).2.1.state = (solve impl s r).1 ∧
    (solveWith impl s asms r).1 = (solve impl s r).1 ∧
    (solveWith impl s asms r).2.1.state = (solve impl s r).1 :=
  ⟨rfl, rfl, rfl, rfl⟩

/-- Claim C2: for every literal sequence and every prior result state,
`add_clause` submits each literal to `ccadical_add` in order, then the zero
terminator, and leaves the stored result state at `None`. -/
theorem claim2_add_clause_resets_state {C : Type} (s : SolverSt C)
    (clause : List Int) :
    (addClause s clause).2 = clause.map Event.engAdd ++ [Event.engAdd 0] ∧
    (addClause s clause).1.state = none ∧
    (addClause s clause).1 = { s with state := none } :=
  ⟨rfl, rfl, rfl⟩

/-- Claim C5: when the last result state is `Some(true)` and the literal is
a valid `i32` literal (nonzero, above `i32::MIN`), `value` returns
`Some(true)` when the engine reports the literal itself, `Some(false)` when
it reports its negation, and `None` for any other engine answer. -/
theorem claim5_value_semantics {C : Type} (s : SolverSt C)
    (lit engAns : Int) (hst : s.state = some true) (h0 : lit ≠ 0)
    (hmin : i32Min < lit) (hmax : lit ≤ i32Max) :
    (value s lit engAns).1 =
      (if engAns = lit then some true
       else if engAns = -lit then some false else none) := by
  simp only [value, negI32_eq_neg lit hmin hmax]

/-- Witness for claim C5 at a concrete satisfiable state, literal 1 and
engine answer -1. -/
theorem claim5_value_semantics_witness :
    (value (⟨some true, none, none, 0⟩ : SolverSt Unit) 1 (-1)).1 =
      (if (-1 : Int) = 1 then some true
       else if (-1 : Int) = -(1 : Int) then some false else none) :=
  claim5_value_semantics ⟨some true, none, none, 0⟩ 1 (-1) rfl
    (by decide) (by decide) (by decide)

/-- Claim C6: on every `solve` (also when reached through `solve_with`),
the strategy's `started` notification is emitted exactly once, before the
`ccadical_solve` call, when and only when a strategy is installed; with no
strategy installed no notification occurs. -/
theorem claim6_started_notification {C : Type} (impl : Callbacks C)
    (s : SolverSt C) (r : Int) (asms : List Int) :
    (solve impl s r).2.2 =
      (if s.cb.isSome then [Event.cbStarted] else []) ++ [Event.engSolve] ∧
    (solveWith impl s asms r).2.2 =
      asms.map Event.engAssume ++
        ((if s.cb.isSome then [Event.cbStarted] else []) ++
          [Event.engSolve]) := by
  rcases s with ⟨st0, cb0, a0, n0⟩
  cases cb0 <;> simp [solve, solveWith]

/-- Claim C7: `solve_with` submits each assumption to `ccadical_assume` in
order and then behaves exactly as `solve`; the binding keeps no assumption
state, and a plain `solve` from any state never emits an assume call. -/
theorem claim7_assumptions_not_persisted {C : Type} (impl : Callbacks C)
    (s s2 : SolverSt C) (asms : List Int) (r r2 lit : Int) :
    (solveWith impl s asms r).2.2 =
      asms.map Event.engAssume ++ (solve impl s r).2.2 ∧
    (solveWith impl s asms r).2.1 = (solve impl s r).2.1 ∧
    (solve impl s2 r2).2.2.count (Event.engAssume lit) = 0 := by
  refine ⟨rfl, rfl, ?_⟩
  rcases s2 with ⟨st0, cb0, a0, n0⟩
  cases cb0 <;> simp [solve, List.count_eq_zero]

/-- Counterexample to claim C3: on a solver with an installed strategy,
clearing via `set_callbacks(None)` does not emit the null
`ccadical_set_terminate` call before dropping the owned strategy object —
the trace contains both events, but the drop comes first, so the
subsequence "set_terminate-null then drop" does not occur. -/
theorem claim3_counterexample_clear_order :
    ¬ List.Sublist [Event.engSetTerminate none false, Event.dropStrategy]
        (setCallbacks (⟨none, some (), some 0, 1⟩ : SolverSt Unit) none).2 ∧
    Event.dropStrategy ∈
      (setCallbacks (⟨none, some (), some 0, 1⟩ : SolverSt Unit) none).2 ∧
    Event.engSetTerminate none false ∈
      (setCallbacks (⟨none, some (), some 0, 1⟩ : SolverSt Unit) none).2 := by
  decide

/-- Claim C3 as amended: clearing the strategy (`set_callbacks(None)`)
drops the owned strategy object first (`self.cb = None`) and only
afterwards passes a null callback and null context to the engine's
`set_terminate` entry point; when no strategy was installed only the null
registration happens. -/
theorem claim3_amended_clear_semantics {C : Type} (c0 : C)
    (st0 : Option Bool) (a0 : Option Nat) (n0 : Nat) :
    setCallbacks (⟨st0, some c0, a0, n0⟩ : SolverSt C) none =
      (⟨st0, none, none, n0⟩,
       [Event.dropStrategy, Event.engSetTerminate none false]) ∧
    setCallbacks (⟨st0, none, a0, n0⟩ : SolverSt C) none =
      (⟨st0, none, none, n0⟩, [Event.engSetTerminate none false]) :=
  ⟨rfl, rfl⟩

theorem regAfter_append (r : Option Nat) (t1 t2 : List Event) :
    regAfter r (t1 ++ t2) = regAfter (regAfter r t1) t2 := by
  induction t1 generalizing r with
  | nil => rfl
  | cons e rest ih => cases e <;> simp [regAfter, ih]

theorem regAfter_map_add (r : Option Nat) (l : List Int) :
    regAfter r (l.map Event.engAdd) = r := by
  induction l with
  | nil => rfl
  | cons x xs ih => simp [regAfter, ih]

theorem regAfter_map_assume (r : Option Nat) (l : List Int) :
    regAfter r (l.map Event.engAssume) = r := by
  induction l with
  | nil => rfl
  | cons x xs ih => simp [regAfter, ih]

theorem stepOp_reg {C : Type} (impl : Callbacks C) (s : SolverSt C)
    (op : Op C) :
    regAfter s.cbAddr (stepOp impl s op).2 = (stepOp impl s op).1.cbAddr := by
  rcases s with ⟨st0, cb0, a0, n0⟩
  cases op with
  | addClause clause =>
    simp [stepOp, addClause, regAfter_append, regAfter_map_add, regAfter]
  | solve r => cases cb0 <;> simp [stepOp, solve, regAfter]
  | solveWith asms r =>
    cases cb0 <;>
      simp [stepOp, solveWith, solve, regAfter_append, regAfter_map_assume,
        regAfter]
  | value lit engAns => simp [stepOp, value, regAfter]
  | failedQ lit engAns => simp [stepOp, failed, regAfter]
  | setCallbacks cb =>
    cases cb <;> cases cb0 <;> simp [stepOp, setCallbacks, regAfter]
  | signatureQ bytes => simp [stepOp, signature, regAfter]
  | stateQ => simp [stepOp, regAfter]

theorem runOps_reg {C : Type} (impl : Callbacks C) (ops : List (Op C)) :
    ∀ s : SolverSt C,
    regAfter s.cbAddr (runOps impl s ops).2 = (runOps impl s ops).1.cbAddr := by
  induction ops with
  | nil => intro s; rfl
  | cons op rest ih =>
    intro s
    simp only [runOps, regAfter_append]
    rw [stepOp_reg]
    exact ih _

/-- Claim C4: a first installation boxes the strategy and registers the
trampoline exactly once, passing the fresh box address as context; a
subsequent installation only overwrites the box contents (no allocation,
no further `set_terminate` call, same address); consequently, over any
operation sequence from a fresh solver, the context pointer registered
with the engine always equals the current box address, so the registered
pointer stays valid. -/
theorem claim4_install_registration {C : Type} (impl : Callbacks C)
    (c c0 : C) (st0 : Option Bool) (a0 : Option Nat) (n0 : Nat)
    (ops : List (Op C)) :
    setCallbacks (⟨st0, none, a0, n0⟩ : SolverSt C) (some c) =
      (⟨st0, some c, some n0, n0 + 1⟩,
       [Event.allocStrategy, Event.engSetTerminate (some n0) true]) ∧
    setCallbacks (⟨st0, some c0, a0, n0⟩ : SolverSt C) (some c) =
      (⟨st0, some c, a0, n0⟩, [Event.overwriteStrategy]) ∧
    regAfter none (runOps impl (newSolver C) ops).2 =
      (runOps impl (newSolver C) ops).1.cbAddr :=
  ⟨rfl, rfl, runOps_reg impl ops (newSolver C)⟩

theorem checkLits_eq (l : List Int) :
    checkLits l = if l.all litOk then some () else none := by
  induction l with
  | nil => rfl
  | cons x xs ih =>
    cases hx : litOk x <;> simp [checkLits, dbgAssert, hx, ih]

/-- Claim C8: the contract preconditions (valid literal for every
literal-accepting operation; result state `Some(true)` for `value` and
`Some(false)` for `failed`) are enforced only by debug-build assertions:
the debug variants panic exactly when a precondition fails and otherwise
agree with the release variants, while the release variants are total and
their results do not depend on the binding's stored state at all. -/
theorem claim8_debug_assertions {C : Type} (impl : Callbacks C)
    (s t : SolverSt C) (lit engAns lit2 engAns2 : Int)
    (clause asms : List Int) (r : Int) :
    addClauseDebug s clause =
      (if clause.all litOk then some (addClause s clause) else none) ∧
    solveWithDebug impl s asms r =
      (if asms.all litOk then some (solveWith impl s asms r) else none) ∧
    valueDebug s lit engAns =
      (if decide (s.state = some true) && litOk lit
       then some (value s lit engAns) else none) ∧
    failedDebug s lit2 engAns2 =
      (if decide (s.state = some false) && litOk lit2
       then some (failed s lit2 engAns2) else none) ∧
    value s lit engAns = value t lit engAns ∧
    failed s lit2 engAns2 = failed t lit2 engAns2 := by
  refine ⟨?_, ?_, ?_, ?_, rfl, rfl⟩
  · cases h : clause.all litOk <;> simp [addClauseDebug, checkLits_eq, h]
  · cases h : asms.all litOk <;> simp [solveWithDebug, checkLits_eq, h]
  · cases h1 : decide (s.state = some true) <;> cases h2 : litOk lit <;>
      simp [valueDebug, dbgAssert, h1, h2]
  · cases h1 : decide (s.state = some false) <;> cases h2 : litOk lit2 <;>
      simp [failedDebug, dbgAssert, h1, h2]

theorem stepOp_no_release {C : Type} (impl : Callbacks C) (s : SolverSt C)
    (op : Op C) : (stepOp impl s op).2.count Event.engRelease = 0 := by
  rcases s with ⟨st0, cb0, a0, n0⟩
  cases op with
  | addClause clause => simp [stepOp, addClause, List.count_eq_zero]
  | solve r => cases cb0 <;> simp [stepOp, solve, List.count_eq_zero]
  | solveWith asms r =>
    cases cb0 <;> simp [stepOp, solveWith, solve, List.count_eq_zero]
  | value lit engAns => simp [stepOp, value, List.count_eq_zero]
  | failedQ lit engAns => simp [stepOp, failed, List.count_eq_zero]
  | setCallbacks cb =>
    cases cb <;> cases cb0 <;>
      simp [stepOp, setCallbacks, List.count_eq_zero]
  | signatureQ bytes => simp [stepOp, signature, List.count_eq_zero]
  | stateQ => simp [stepOp]

theorem runOps_no_release {C : Type} (impl : Callbacks C)
    (ops : List (Op C)) : ∀ s : SolverSt C,
    (runOps impl s ops).2.count Event.engRelease = 0 := by
  induction ops with
  | nil => intro s; rfl
  | cons op rest ih =>
    intro s
    simp only [runOps, List.count_append]
    rw [stepOp_no_release]
    simp [ih]

/-- Claim C9: over any operation sequence on a solver, no operation ever
calls `ccadical_release`; the lifetime trace consists of creation, the
operations' events, then exactly one release, which is the final event —
so the handle is released exactly once, on drop, and never used after. -/
theorem claim9_release_exactly_once {C : Type} (impl : Callbacks C)
    (ops : List (Op C)) :
    (runOps impl (newSolver C) ops).2.count Event.engRelease = 0 ∧
    lifetimeTrace impl ops =
      Event.engInit :: (runOps impl (newSolver C) ops).2 ++
        [Event.engRelease] ∧
    (lifetimeTrace impl ops).count Event.engRelease = 1 ∧
    (lifetimeTrace impl ops).getLast? = some Event.engRelease := by
  refine ⟨runOps_no_release impl ops (newSolver C), rfl, ?_, ?_⟩
  · simp [lifetimeTrace, dropSolver, List.count_append, List.count_cons,
      runOps_no_release impl ops (newSolver C)]
  · show (Event.engInit :: (runOps impl (newSolver C) ops).2 ++
      [Event.engRelease]).getLast? = some Event.engRelease
    rw [List.getLast?_concat]

/-- Claim C10: `signature` never mutates the solver state, and when the
engine's signature bytes are not valid UTF-8 it returns the fallback
bytes of the literal string "invalid" instead of failing. -/
theorem claim10_signature_fallback {C : Type} (s : SolverSt C)
    (bytes : List Nat) :
    (signature s bytes).2.1 = s ∧
    (utf8Valid bytes = false → (signature s bytes).1 = invalidBytes) := by
  refine ⟨rfl, fun h => ?_⟩
  simp [signature, h]

/-- Witness for claim C10 at the invalid byte sequence `[0xFF]`. -/
theorem claim10_signature_fallback_witness :
    utf8Valid [255] = false ∧
    (signature (newSolver Unit) [255]).1 = invalidBytes :=
  ⟨by decide, (claim10_signature_fallback (newSolver Unit) [255]).2 (by decide)⟩

end Cadical
